import Mathlib

/-!
Shallow embedding of the Soccer Roster app's two algorithmic cores:

* `generateTeamFormation` (client/src/pages/home.tsx) — the formation
  assigner.  `Math.random()` draws are modelled by an explicit stream
  `σ : List Nat` of raw draws; each pick uses `σ.headD 0 % len`, which
  ranges over exactly the indices `Math.floor(Math.random() * len)` can
  produce, and properties are quantified over every stream.
* `getSmartPositionSuggestion` (server/storage.ts) — the position
  suggester.  JavaScript numbers are modelled as exact arithmetic:
  `goals / matchesPlayed > 0.5` becomes `2 * goals > matchesPlayed` and
  `assists / matchesPlayed > 0.3` becomes `10 * assists > 3 * matchesPlayed`
  (cross-multiplication, `matchesPlayed > 5 > 0` in context);
  `Math.ceil(total * ratio)` with the ratios 0.1 / 0.4 / 0.2 becomes the
  exact ceiling `(total * numerator + 9) / 10`.
  `JSON.parse(player.positionHistory)` is modelled by
  `positionHistory : Option (List Position)`: `none` is an unparseable
  blob (the `catch` path), `some h` a decoded history.
-/

namespace Soccer

inductive Position where
  | goalkeeper
  | defender
  | midfielder
  | forward
deriving DecidableEq, Repr, Inhabited

/-- The fixed enumeration order of the four position kinds: the key order of
`playersByPosition`, `formation.positions` and `idealRatios` in the source. -/
def allPositions : List Position :=
  [Position.goalkeeper, Position.defender, Position.midfielder, Position.forward]

structure Player where
  id : Nat
  name : String
  position : Position
  jerseyNumber : Nat
  goals : Nat
  assists : Nat
  redCards : Nat
  yellowCards : Nat
  matchesPlayed : Nat
  positionHistory : Option (List Position)
deriving DecidableEq, Repr, Inhabited

/-- Output value of the assigner (`FormationPlayer` in home.tsx);
`position` is the assigned position. -/
structure FormationPlayer where
  id : Nat
  name : String
  position : Position
  jerseyNumber : Nat
deriving DecidableEq, Repr, Inhabited

/-- `Formation` of home.tsx: a name and the four position counts. -/
structure Formation where
  name : String
  goalkeepers : Nat
  defenders : Nat
  midfielders : Nat
  forwards : Nat
deriving DecidableEq, Repr

def Formation.count (f : Formation) : Position → Nat
  | Position.goalkeeper => f.goalkeepers
  | Position.defender => f.defenders
  | Position.midfielder => f.midfielders
  | Position.forward => f.forwards

/-- `Object.values(formation.positions).reduce((sum, c) => sum + c, 0)`. -/
def Formation.required (f : Formation) : Nat :=
  f.goalkeepers + f.defenders + f.midfielders + f.forwards

/-- The fixed formation catalog of home.tsx. -/
def f442 : Formation := ⟨"4-4-2", 1, 4, 4, 2⟩

def f433 : Formation := ⟨"4-3-3", 1, 4, 3, 3⟩

def f352 : Formation := ⟨"3-5-2", 1, 3, 5, 2⟩

def f4231 : Formation := ⟨"4-2-3-1", 1, 4, 5, 1⟩

/-- The record pushed onto `selectedPlayers` in home.tsx. -/
def mkFP (p : Player) (pos : Position) : FormationPlayer :=
  ⟨p.id, p.name, pos, p.jerseyNumber⟩

/-- The inner loop of the preferred-position pass:
`for (let i = 0; i < requiredCount && positionPlayers.length > 0; i++)`
picking `Math.floor(Math.random() * positionPlayers.length)` and splicing.
Returns the selected players, the remaining bucket and the unconsumed
random stream. -/
def selectFrom : Nat → List Player → Position → List Nat →
    List FormationPlayer × List Player × List Nat
  | 0, bucket, _, σ => ([], bucket, σ)
  | _ + 1, [], _, σ => ([], [], σ)
  | n + 1, b0 :: bs, pos, σ =>
    let bucket := b0 :: bs
    let idx := σ.headD 0 % bucket.length
    let chosen := bucket.getD idx b0
    let rest := bucket.eraseIdx idx
    let out := selectFrom n rest pos σ.tail
    (mkFP chosen pos :: out.1, out.2.1, out.2.2)

/-- The preferred-position pass: one `selectFrom` per formation entry, in
key order, each on the bucket of checked-in players registered at that
position.  Returns `selectedPlayers` after the first pass and the
unconsumed random stream. -/
def preferredPass (avail : List Player) (f : Formation) (σ : List Nat) :
    List FormationPlayer × List Nat :=
  let o1 := selectFrom (f.count Position.goalkeeper)
    (avail.filter (fun p => p.position == Position.goalkeeper)) Position.goalkeeper σ
  let o2 := selectFrom (f.count Position.defender)
    (avail.filter (fun p => p.position == Position.defender)) Position.defender o1.2.2
  let o3 := selectFrom (f.count Position.midfielder)
    (avail.filter (fun p => p.position == Position.midfielder)) Position.midfielder o2.2.2
  let o4 := selectFrom (f.count Position.forward)
    (avail.filter (fun p => p.position == Position.forward)) Position.forward o3.2.2
  (o1.1 ++ o2.1 ++ o3.1 ++ o4.1, o4.2.2)

/-- The `positionsNeeded` array of the gap-filling pass: for each formation
entry in key order, `requiredCount - currentCount` copies of the position. -/
def positionsNeeded (f : Formation) (selected : List FormationPlayer) : List Position :=
  (List.replicate (f.count Position.goalkeeper -
      (selected.filter (fun fp => fp.position == Position.goalkeeper)).length)
    Position.goalkeeper) ++
  (List.replicate (f.count Position.defender -
      (selected.filter (fun fp => fp.position == Position.defender)).length)
    Position.defender) ++
  (List.replicate (f.count Position.midfielder -
      (selected.filter (fun fp => fp.position == Position.midfielder)).length)
    Position.midfielder) ++
  (List.replicate (f.count Position.forward -
      (selected.filter (fun fp => fp.position == Position.forward)).length)
    Position.forward)

/-- The gap-filling loop: for each still-needed slot, while the pool is
non-empty, pick a random remaining player and assign it to that slot. -/
def gapFill : List Position → List Player → List Nat → List FormationPlayer
  | [], _, _ => []
  | _ :: _, [], _ => []
  | pos :: restPos, q0 :: qs, σ =>
    let pool := q0 :: qs
    let idx := σ.headD 0 % pool.length
    let chosen := pool.getD idx q0
    mkFP chosen pos :: gapFill restPos (pool.eraseIdx idx) σ.tail

inductive AssignResult where
  | noPlayersAvailable
  | insufficientPlayers (required available : Nat)
  | ok (team : List FormationPlayer)
deriving DecidableEq, Repr

/-- `generateTeamFormation` of home.tsx, on the already-filtered list of
checked-in players.  The two error toasts become the two error results,
carrying exactly the numbers the toast messages interpolate. -/
def generateTeamFormation (avail : List Player) (f : Formation) (σ : List Nat) :
    AssignResult :=
  if avail.length = 0 then AssignResult.noPlayersAvailable
  else if avail.length < f.required then
    AssignResult.insufficientPlayers f.required avail.length
  else
    let pp := preferredPass avail f σ
    let selected := pp.1
    if selected.length < f.required then
      let remaining := avail.filter (fun p => ! selected.any (fun sp => sp.id == p.id))
      AssignResult.ok (selected ++ gapFill (positionsNeeded f selected) remaining pp.2)
    else
      AssignResult.ok selected

/-! ## The position suggester (server/storage.ts) -/

/-- Numerator over 10 of the ideal ratios
`{goalkeeper: 0.1, defender: 0.4, midfielder: 0.4, forward: 0.2}`. -/
def idealRatioNum : Position → Nat
  | Position.goalkeeper => 1
  | Position.defender => 4
  | Position.midfielder => 4
  | Position.forward => 2

/-- `Math.ceil(totalPlayers * ratio)`, exactly: `⌈total * n / 10⌉`. -/
def idealCount (total : Nat) (pos : Position) : Nat :=
  (total * idealRatioNum pos + 9) / 10

/-- `analyzeTeamPositionNeeds`: `Math.max(0, ideal - current)` per position
(the `Nat` subtraction is exactly the clamped difference). -/
def analyzeTeamPositionNeeds (roster : List Player) (pos : Position) : Nat :=
  idealCount roster.length pos -
    (roster.filter (fun p => p.position == pos)).length

/-- Index of a position in the fixed enumeration order. -/
def posIdx : Position → Nat
  | Position.goalkeeper => 0
  | Position.defender => 1
  | Position.midfielder => 2
  | Position.forward => 3

/-- `Object.entries(positionNeeds).sort(([,a],[,b]) => b - a)[0][0]`:
the sort is stable, so this is the first position, in key order, attaining
the maximum need. -/
def mostNeededPosition (needs : Position → Nat) : Position :=
  allPositions.foldl (fun best p => if needs best < needs p then p else best)
    Position.goalkeeper

/-- Builds the key list of the `positionCounts` object: a position is
appended the first time it is seen, so the result lists first occurrences
in order. -/
def keysAux : List Position → List Position → List Position
  | [], _ => []
  | p :: rest, seen =>
    if p ∈ seen then keysAux rest seen else p :: keysAux rest (p :: seen)

/-- The keys of the `positionCounts` object, in insertion order, i.e. the
order of first occurrence in the history. -/
def keysInOrder (l : List Position) : List Position := keysAux l []

/-- `Object.keys(positionCounts).reduce((a, b) => positionCounts[a] >
positionCounts[b] ? a : b, player.position)`.  A key absent from the
counts object reads as `undefined`, which loses every `>` comparison —
counting it as 0 is faithful because every genuine key has count ≥ 1. -/
def mostPlayedPosition (hist : List Position) (init : Position) : Position :=
  (keysInOrder hist).foldl
    (fun a b => if hist.count b < hist.count a then a else b) init

/-- Tiers 4–6 of the cascade: historical frequency, the fallback re-check
of the experience conditions, and the final default. -/
def afterNeeds (player : Player) (hist : List Position) : Position :=
  if 1 < hist.length then mostPlayedPosition hist player.position
  else if 5 < player.matchesPlayed ∧ player.matchesPlayed < 2 * player.goals then
    Position.forward
  else if 5 < player.matchesPlayed ∧ 3 * player.matchesPlayed < 10 * player.assists then
    Position.midfielder
  else if 5 < player.matchesPlayed ∧ player.redCards + player.yellowCards = 0 then
    Position.defender
  else player.position

/-- Tiers 3–6 of the cascade, starting at the team-needs tier. -/
def afterExperience (player : Player) (roster : List Player) (hist : List Position) :
    Position :=
  let needs := analyzeTeamPositionNeeds roster
  let mnp := mostNeededPosition needs
  if 1 < needs mnp then mnp
  else afterNeeds player hist

/-- The whole cascade on a successfully decoded history. -/
def suggestWithHistory (player : Player) (roster : List Player)
    (hist : List Position) : Position :=
  if 3 ≤ player.goals then Position.forward
  else if 3 ≤ player.assists then Position.midfielder
  else if 5 < player.matchesPlayed ∧ player.matchesPlayed < 2 * player.goals then
    Position.forward
  else if 5 < player.matchesPlayed ∧ 3 * player.matchesPlayed < 10 * player.assists then
    Position.midfielder
  else if 5 < player.matchesPlayed ∧ player.redCards + player.yellowCards = 0 then
    Position.defender
  else afterExperience player roster hist

/-- `getSmartPositionSuggestion` on a fetched player and the full-roster
snapshot.  `JSON.parse` happens before the cascade, so an unparseable
history (`none`) lands in the `catch`, which returns `player.position`. -/
def suggest (player : Player) (roster : List Player) : Position :=
  match player.positionHistory with
  | none => player.position
  | some hist => suggestWithHistory player roster hist

/-- Tiers 4 and 6 only: the cascade tail with the fallback re-check
(tier 5) deleted. -/
def afterNeedsNoRecheck (player : Player) (hist : List Position) : Position :=
  if 1 < hist.length then mostPlayedPosition hist player.position
  else player.position

/-- The suggester with the redundant re-check tier removed. -/
def suggestNoRecheck (player : Player) (roster : List Player) : Position :=
  match player.positionHistory with
  | none => player.position
  | some hist =>
    if 3 ≤ player.goals then Position.forward
    else if 3 ≤ player.assists then Position.midfielder
    else if 5 < player.matchesPlayed ∧ player.matchesPlayed < 2 * player.goals then
      Position.forward
    else if 5 < player.matchesPlayed ∧ 3 * player.matchesPlayed < 10 * player.assists then
      Position.midfielder
    else if 5 < player.matchesPlayed ∧ player.redCards + player.yellowCards = 0 then
      Position.defender
    else
      let needs := analyzeTeamPositionNeeds roster
      let mnp := mostNeededPosition needs
      if 1 < needs mnp then mnp
      else afterNeedsNoRecheck player hist

/-- The spec's ideal ratios as exact rationals, for stating the
team-needs formula the way the spec writes it. -/
def specRatios : Position → ℚ
  | Position.goalkeeper => 1 / 10
  | Position.defender => 4 / 10
  | Position.midfielder => 4 / 10
  | Position.forward => 2 / 10

/-! ## Concrete inputs used by witnesses and counterexamples -/

/-- A stats-free checked-in player registered at `pos`. -/
def mkSimplePlayer (i : Nat) (pos : Position) : Player :=
  ⟨i, "", pos, i, 0, 0, 0, 0, 0, some []⟩

/-- Eleven checked-in players matching 4-4-2 exactly: 1 GK, 4 DF, 4 MF, 2 FW. -/
def roster442 : List Player :=
  [mkSimplePlayer 1 Position.goalkeeper,
   mkSimplePlayer 2 Position.defender, mkSimplePlayer 3 Position.defender,
   mkSimplePlayer 4 Position.defender, mkSimplePlayer 5 Position.defender,
   mkSimplePlayer 6 Position.midfielder, mkSimplePlayer 7 Position.midfielder,
   mkSimplePlayer 8 Position.midfielder, mkSimplePlayer 9 Position.midfielder,
   mkSimplePlayer 10 Position.forward, mkSimplePlayer 11 Position.forward]

/-- Five checked-in players, fewer than any catalog formation requires. -/
def roster5 : List Player := roster442.take 5

/-- Tie history: defender and midfielder once each, registered goalkeeper. -/
def tiePlayer : Player :=
  ⟨99, "", Position.goalkeeper, 42, 0, 0, 1, 0, 0,
   some [Position.defender, Position.midfielder]⟩

/-- The spec's history scenario: 0 matches, history [defender, defender,
midfielder]. -/
def historyPlayer : Player :=
  ⟨98, "", Position.goalkeeper, 41, 0, 0, 0, 0, 0,
   some [Position.defender, Position.defender, Position.midfielder]⟩

/-- The spec's priority scenario: goals 5, matchesPlayed 1. -/
def strikerPlayer : Player := ⟨97, "", Position.goalkeeper, 40, 5, 0, 0, 0, 1, some []⟩

/-- The spec's experience scenario: 10 matches, 6 goals, 1 assist, clean. -/
def veteranPlayer : Player := ⟨96, "", Position.goalkeeper, 39, 6, 1, 0, 0, 10, some []⟩

/-- An experienced scoreless player with a clean record. -/
def cleanPlayer : Player := ⟨95, "", Position.forward, 38, 0, 0, 0, 0, 10, some []⟩

/-- An experienced scoreless player with a booking, so no experience rule
fires. -/
def fallthroughPlayer : Player := ⟨93, "", Position.forward, 36, 0, 0, 1, 0, 10, some []⟩

/-- A player whose stored history is unparseable. -/
def malformedPlayer : Player := ⟨94, "", Position.midfielder, 37, 5, 0, 0, 0, 0, none⟩

/-! ## Suggester lemmas -/

/-- The accumulator of the JS `reduce` never decreases in count, and the
result dominates every visited key. -/
theorem foldMax_le (c : Position → Nat) (keys : List Position) (init : Position) :
    c init ≤ c (keys.foldl (fun a b => if c b < c a then a else b) init) ∧
    ∀ q ∈ keys, c q ≤ c (keys.foldl (fun a b => if c b < c a then a else b) init) := by
  induction keys generalizing init with
  | nil => exact ⟨le_refl _, by simp⟩
  | cons b t ih =>
    have step : c init ≤ c (if c b < c init then init else b) ∧
        c b ≤ c (if c b < c init then init else b) := by
      split <;> omega
    have h := ih (if c b < c init then init else b)
    refine ⟨le_trans step.1 h.1, ?_⟩
    intro q hq
    rcases List.mem_cons.1 hq with rfl | hq
    · exact le_trans step.2 h.1
    · exact h.2 q hq

/-- Where the JS `reduce` result sits: either the initial accumulator beat
every key strictly, or the result is a key and every later key has a
strictly smaller count. -/
theorem foldMax_split (c : Position → Nat) (keys : List Position) (init : Position) :
    (keys.foldl (fun a b => if c b < c a then a else b) init = init ∧
      ∀ q ∈ keys, c q < c init) ∨
    ∃ l₁ l₂, keys = l₁ ++ (keys.foldl (fun a b => if c b < c a then a else b) init) :: l₂ ∧
      ∀ q ∈ l₂, c q < c (keys.foldl (fun a b => if c b < c a then a else b) init) := by
  induction keys generalizing init with
  | nil => exact Or.inl ⟨rfl, by simp⟩
  | cons b t ih =>
    simp only [List.foldl_cons]
    rcases ih (if c b < c init then init else b) with ⟨hr, hall⟩ | ⟨l₁, l₂, ht, hl₂⟩
    · by_cases hcb : c b < c init
      · refine Or.inl ⟨by rw [hr, if_pos hcb], ?_⟩
        intro q hq
        rcases List.mem_cons.1 hq with rfl | hq
        · exact hcb
        · have := hall q hq
          rwa [if_pos hcb] at this
      · refine Or.inr ⟨[], t, ?_, ?_⟩
        · rw [hr, if_neg hcb]
          simp
        · intro q hq
          rw [hr, if_neg hcb]
          have := hall q hq
          rwa [if_neg hcb] at this
    · exact Or.inr ⟨b :: l₁, l₂, by rw [List.cons_append, ← ht], hl₂⟩

theorem mem_keysAux (l : List Position) (seen : List Position) (q : Position) :
    q ∈ keysAux l seen ↔ q ∈ l ∧ q ∉ seen := by
  induction l generalizing seen with
  | nil => simp [keysAux]
  | cons p rest ih =>
    simp only [keysAux]
    by_cases hp : p ∈ seen
    · rw [if_pos hp, ih]
      simp only [List.mem_cons]
      constructor
      · rintro ⟨hq, hs⟩
        exact ⟨Or.inr hq, hs⟩
      · rintro ⟨rfl | hq, hs⟩
        · exact absurd hp hs
        · exact ⟨hq, hs⟩
    · rw [if_neg hp]
      simp only [List.mem_cons, ih, List.mem_cons]
      constructor
      · rintro (rfl | ⟨hq, hs⟩)
        · exact ⟨Or.inl rfl, hp⟩
        · refine ⟨Or.inr hq, fun hqs => hs (Or.inr hqs)⟩
      · rintro ⟨hqp, hs⟩
        by_cases hq : q = p
        · exact Or.inl hq
        · rcases hqp with rfl | hqr
          · exact absurd rfl hq
          · refine Or.inr ⟨hqr, ?_⟩
            intro hmem
            rcases hmem with rfl | hqs
            · exact hq rfl
            · exact hs hqs

/-- `keysInOrder` has the same members as the history itself. -/
theorem mem_keysInOrder (l : List Position) (q : Position) :
    q ∈ keysInOrder l ↔ q ∈ l := by
  simp [keysInOrder, mem_keysAux]

theorem keysInOrder_ne_nil (l : List Position) (h : l ≠ []) : keysInOrder l ≠ [] := by
  cases l with
  | nil => exact absurd rfl h
  | cons p rest =>
    simp only [keysInOrder, keysAux, List.not_mem_nil, if_false]
    exact List.cons_ne_nil _ _

/-- The `reduce` over the counts object returns a key of maximal count, and
every key whose first occurrence is later has a strictly smaller count. -/
theorem mostPlayedPosition_spec (hist : List Position) (init : Position)
    (hne : hist ≠ []) :
    ∃ l₁ l₂, keysInOrder hist = l₁ ++ (mostPlayedPosition hist init) :: l₂ ∧
      (∀ q : Position, hist.count q ≤ hist.count (mostPlayedPosition hist init)) ∧
      ∀ q ∈ l₂, hist.count q < hist.count (mostPlayedPosition hist init) := by
  have hsplit := foldMax_split (fun q => hist.count q) (keysInOrder hist) init
  rcases hsplit with ⟨hr, hall⟩ | ⟨l₁, l₂, hkeys, hl₂⟩
  · exfalso
    obtain ⟨k0, t, hk⟩ := List.exists_cons_of_ne_nil (keysInOrder_ne_nil hist hne)
    have hk0 : k0 ∈ keysInOrder hist := by rw [hk]; exact List.mem_cons_self k0 t
    have hlt := hall k0 hk0
    by_cases hi : init ∈ hist
    · have : init ∈ keysInOrder hist := (mem_keysInOrder hist init).2 hi
      have := hall init this
      omega
    · have : hist.count init = 0 := List.count_eq_zero.2 hi
      omega
  · refine ⟨l₁, l₂, hkeys, ?_, hl₂⟩
    intro q
    by_cases hq : q ∈ hist
    · exact (foldMax_le (fun q => hist.count q) (keysInOrder hist) init).2 q
        ((mem_keysInOrder hist q).2 hq)
    · rw [List.count_eq_zero.2 hq]
      exact Nat.zero_le _

/-- Exact ceiling: `Math.ceil(n * (k/10))` is `(n*k + 9) / 10`. -/
theorem ceil_mul_div_ten (n k : ℕ) :
    ⌈(n : ℚ) * ((k : ℚ) / 10)⌉ = (((n * k + 9) / 10 : ℕ) : ℤ) := by
  have hm : (n : ℚ) * ((k : ℚ) / 10) = ((n * k : ℕ) : ℚ) / 10 := by
    push_cast; ring
  set m := n * k with hmdef
  set K := (m + 9) / 10 with hK
  have h1q : (m : ℚ) ≤ 10 * K := by exact_mod_cast (by omega : m ≤ 10 * K)
  have h2q : (10 : ℚ) * K ≤ (m : ℚ) + 9 := by exact_mod_cast (by omega : 10 * K ≤ m + 9)
  rw [hm, Int.ceil_eq_iff]
  constructor
  · rw [lt_div_iff₀ (by norm_num : (0:ℚ) < 10)]
    push_cast
    linarith
  · rw [div_le_iff₀ (by norm_num : (0:ℚ) < 10)]
    push_cast
    linarith

/-- The ideal counts are exactly the spec's `ceil(total * ratio)`. -/
theorem idealCount_eq_ceil (n : ℕ) (pos : Position) :
    (idealCount n pos : ℤ) = ⌈(n : ℚ) * specRatios pos⌉ := by
  cases pos
  · simp only [idealCount, idealRatioNum, specRatios]
    rw [show ((1:ℚ)/10) = ((1:ℕ):ℚ)/10 by norm_num, ceil_mul_div_ten]
  · simp only [idealCount, idealRatioNum, specRatios]
    rw [show ((4:ℚ)/10) = ((4:ℕ):ℚ)/10 by norm_num, ceil_mul_div_ten]
  · simp only [idealCount, idealRatioNum, specRatios]
    rw [show ((4:ℚ)/10) = ((4:ℕ):ℚ)/10 by norm_num, ceil_mul_div_ten]
  · simp only [idealCount, idealRatioNum, specRatios]
    rw [show ((2:ℚ)/10) = ((2:ℕ):ℚ)/10 by norm_num, ceil_mul_div_ten]

/-- The needs map satisfies the spec formula
`need = max(0, ceil(total * ratio) - current)`. -/
theorem analyzeTeamPositionNeeds_eq (roster : List Player) (pos : Position) :
    (analyzeTeamPositionNeeds roster pos : ℤ) =
      max 0 (⌈(roster.length : ℚ) * specRatios pos⌉ -
        ((roster.filter (fun p => p.position == pos)).length : ℤ)) := by
  rw [← idealCount_eq_ceil]
  unfold analyzeTeamPositionNeeds
  omega

/-- `mostNeededPosition` attains the maximum need and is the first position,
in enumeration order, to do so. -/
theorem mostNeededPosition_spec (needs : Position → Nat) :
    (∀ q, needs q ≤ needs (mostNeededPosition needs)) ∧
    ∀ q, needs q = needs (mostNeededPosition needs) →
      posIdx (mostNeededPosition needs) ≤ posIdx q := by
  unfold mostNeededPosition allPositions
  simp only [List.foldl_cons, List.foldl_nil]
  constructor
  · intro q
    rcases q <;> split_ifs <;> omega
  · intro q hq
    rcases q <;> split_ifs at hq ⊢ <;> simp only [posIdx] <;> omega

/-- When the performance and experience tiers all miss, the cascade lands in
the team-needs tier. -/
theorem suggest_eq_afterExperience (p : Player) (r : List Player) (h : List Position)
    (hh : p.positionHistory = some h) (hg : p.goals < 3) (ha : p.assists < 3)
    (hx1 : ¬ (5 < p.matchesPlayed ∧ p.matchesPlayed < 2 * p.goals))
    (hx2 : ¬ (5 < p.matchesPlayed ∧ 3 * p.matchesPlayed < 10 * p.assists))
    (hx3 : ¬ (5 < p.matchesPlayed ∧ p.redCards + p.yellowCards = 0)) :
    suggest p r = afterExperience p r h := by
  simp only [suggest, hh, suggestWithHistory]
  rw [if_neg (by omega), if_neg (by omega), if_neg hx1, if_neg hx2, if_neg hx3]

/-- C4: the performance tier dominates: `goals >= 3` forces `forward`, else
`assists >= 3` forces `midfielder`; a 5-goal, 1-match player gets `forward`
whatever the roster. -/
theorem suggest_performance_override (p : Player) (roster : List Player)
    (h : List Position) (hh : p.positionHistory = some h) :
    (3 ≤ p.goals → suggest p roster = Position.forward) ∧
    (p.goals < 3 → 3 ≤ p.assists → suggest p roster = Position.midfielder) ∧
    (p.goals = 5 → p.matchesPlayed = 1 → suggest p roster = Position.forward) := by
  refine ⟨?_, ?_, ?_⟩
  · intro hg
    simp only [suggest, hh, suggestWithHistory]
    rw [if_pos hg]
  · intro hg ha
    simp only [suggest, hh, suggestWithHistory]
    rw [if_neg (by omega), if_pos ha]
  · intro hg _
    simp only [suggest, hh, suggestWithHistory]
    rw [if_pos (by omega)]

theorem suggest_performance_override_witness :
    strikerPlayer.positionHistory = some [] ∧
    suggest strikerPlayer roster442 = Position.forward :=
  ⟨rfl, (suggest_performance_override strikerPlayer roster442 [] rfl).2.2 rfl rfl⟩

/-- C5: the experience tier: only for `matchesPlayed > 5`, in order
goals-per-match > 0.5 → forward, assists-per-match > 0.3 → midfielder,
clean record → defender; with ≤ 5 matches the tier is skipped; and the
spec's 10-match 6-goal scenario yields forward. -/
theorem suggest_experience_tier (p : Player) (roster : List Player) (h : List Position)
    (hh : p.positionHistory = some h) :
    (p.goals < 3 → p.assists < 3 →
      ((5 < p.matchesPlayed → p.matchesPlayed < 2 * p.goals →
          suggest p roster = Position.forward) ∧
       (5 < p.matchesPlayed → ¬ p.matchesPlayed < 2 * p.goals →
          3 * p.matchesPlayed < 10 * p.assists → suggest p roster = Position.midfielder) ∧
       (5 < p.matchesPlayed → ¬ p.matchesPlayed < 2 * p.goals →
          ¬ 3 * p.matchesPlayed < 10 * p.assists → p.redCards + p.yellowCards = 0 →
          suggest p roster = Position.defender) ∧
       (p.matchesPlayed ≤ 5 → suggest p roster = afterExperience p roster h))) ∧
    (p.goals = 6 → p.assists = 1 → p.matchesPlayed = 10 →
      suggest p roster = Position.forward) := by
  constructor
  · intro hg ha
    refine ⟨?_, ?_, ?_, ?_⟩
    · intro hm hfw
      exfalso
      omega
    · intro hm hfw hmf
      simp only [suggest, hh, suggestWithHistory]
      rw [if_neg (by omega), if_neg (by omega), if_neg (by omega), if_pos ⟨hm, hmf⟩]
    · intro hm hfw hmf hclean
      simp only [suggest, hh, suggestWithHistory]
      rw [if_neg (by omega), if_neg (by omega), if_neg (by omega), if_neg (by omega),
        if_pos ⟨hm, hclean⟩]
    · intro hm
      exact suggest_eq_afterExperience p roster h hh hg ha (by omega) (by omega) (by omega)
  · intro hg ha hm
    simp only [suggest, hh, suggestWithHistory]
    rw [if_pos (by omega)]

theorem suggest_experience_tier_witness :
    (cleanPlayer.positionHistory = some [] ∧ cleanPlayer.goals < 3 ∧
      cleanPlayer.assists < 3 ∧ 5 < cleanPlayer.matchesPlayed ∧
      cleanPlayer.redCards + cleanPlayer.yellowCards = 0) ∧
    suggest cleanPlayer [] = Position.defender :=
  ⟨⟨rfl, by decide, by decide, by decide, rfl⟩,
    ((suggest_experience_tier cleanPlayer [] [] rfl).1 (by decide) (by decide)).2.2.1
      (by decide) (by decide) (by decide) rfl⟩

/-- C6: the needs map equals `max(0, ceil(total*ratio) - current)` with the
spec's ratios; the chosen position attains the maximum need, first in
enumeration order among ties; the tier returns it iff the maximum need
exceeds 1, otherwise the cascade proceeds to the history tier. -/
theorem suggest_team_needs (p : Player) (roster : List Player) (h : List Position)
    (hh : p.positionHistory = some h) (hg : p.goals < 3) (ha : p.assists < 3)
    (hx1 : ¬ (5 < p.matchesPlayed ∧ p.matchesPlayed < 2 * p.goals))
    (hx2 : ¬ (5 < p.matchesPlayed ∧ 3 * p.matchesPlayed < 10 * p.assists))
    (hx3 : ¬ (5 < p.matchesPlayed ∧ p.redCards + p.yellowCards = 0)) :
    (∀ pos, (analyzeTeamPositionNeeds roster pos : ℤ) =
      max 0 (⌈(roster.length : ℚ) * specRatios pos⌉ -
        ((roster.filter (fun q => q.position == pos)).length : ℤ))) ∧
    (∀ q, analyzeTeamPositionNeeds roster q ≤
      analyzeTeamPositionNeeds roster
        (mostNeededPosition (analyzeTeamPositionNeeds roster))) ∧
    (∀ q, analyzeTeamPositionNeeds roster q =
        analyzeTeamPositionNeeds roster
          (mostNeededPosition (analyzeTeamPositionNeeds roster)) →
      posIdx (mostNeededPosition (analyzeTeamPositionNeeds roster)) ≤ posIdx q) ∧
    (1 < analyzeTeamPositionNeeds roster
        (mostNeededPosition (analyzeTeamPositionNeeds roster)) →
      suggest p roster = mostNeededPosition (analyzeTeamPositionNeeds roster)) ∧
    (analyzeTeamPositionNeeds roster
        (mostNeededPosition (analyzeTeamPositionNeeds roster)) ≤ 1 →
      suggest p roster = afterNeeds p h) := by
  refine ⟨fun pos => analyzeTeamPositionNeeds_eq roster pos,
    (mostNeededPosition_spec (analyzeTeamPositionNeeds roster)).1,
    (mostNeededPosition_spec (analyzeTeamPositionNeeds roster)).2, ?_, ?_⟩
  · intro hgt
    rw [suggest_eq_afterExperience p roster h hh hg ha hx1 hx2 hx3]
    simp only [afterExperience]
    rw [if_pos hgt]
  · intro hle
    rw [suggest_eq_afterExperience p roster h hh hg ha hx1 hx2 hx3]
    simp only [afterExperience]
    rw [if_neg (by omega)]

theorem suggest_team_needs_witness :
    (fallthroughPlayer.positionHistory = some [] ∧ fallthroughPlayer.goals < 3 ∧
      fallthroughPlayer.assists < 3) ∧
    (analyzeTeamPositionNeeds roster442
        (mostNeededPosition (analyzeTeamPositionNeeds roster442)) ≤ 1 ∧
      suggest fallthroughPlayer roster442 = afterNeeds fallthroughPlayer []) :=
  ⟨⟨rfl, by decide, by decide⟩, by decide,
    (suggest_team_needs fallthroughPlayer roster442 [] rfl (by decide) (by decide)
      (by decide) (by decide) (by decide)).2.2.2.2 (by decide)⟩

/-- C7, counterexample: the history tie-break does not go to the first kind
reaching the maximum.  `tiePlayer` has history [defender, midfielder] — a
tie in which defender occurs first — yet the code returns midfielder. -/
theorem suggest_history_tie_counterexample :
    tiePlayer.positionHistory = some [Position.defender, Position.midfielder] ∧
    [Position.defender, Position.midfielder].count Position.defender =
      [Position.defender, Position.midfielder].count Position.midfielder ∧
    suggest tiePlayer [] = Position.midfielder ∧
    Position.midfielder ≠ Position.defender := by decide

/-- C7, amended: when tiers 1–3 miss and the history has more than one
entry, the suggester returns a kind of maximal frequency in the history,
and on ties the LAST kind (in order of first occurrence) attaining the
maximum wins — every kind whose first occurrence is later has strictly
smaller count; the spec's [defender, defender, midfielder] scenario still
yields defender. -/
theorem suggest_history_frequency_amended :
    (∀ (p : Player) (roster : List Player) (h : List Position),
      p.positionHistory = some h → 1 < h.length →
      p.goals < 3 → p.assists < 3 →
      ¬ (5 < p.matchesPlayed ∧ p.matchesPlayed < 2 * p.goals) →
      ¬ (5 < p.matchesPlayed ∧ 3 * p.matchesPlayed < 10 * p.assists) →
      ¬ (5 < p.matchesPlayed ∧ p.redCards + p.yellowCards = 0) →
      analyzeTeamPositionNeeds roster
        (mostNeededPosition (analyzeTeamPositionNeeds roster)) ≤ 1 →
      ∃ l₁ l₂, keysInOrder h = l₁ ++ (suggest p roster) :: l₂ ∧
        (∀ q : Position, h.count q ≤ h.count (suggest p roster)) ∧
        (∀ q ∈ l₂, h.count q < h.count (suggest p roster))) ∧
    suggest historyPlayer [] = Position.defender := by
  constructor
  · intro p roster h hh hlen hg ha hx1 hx2 hx3 hneed
    have hs : suggest p roster = mostPlayedPosition h p.position := by
      rw [suggest_eq_afterExperience p roster h hh hg ha hx1 hx2 hx3]
      simp only [afterExperience]
      rw [if_neg (by omega)]
      simp only [afterNeeds]
      rw [if_pos hlen]
    rw [hs]
    refine mostPlayedPosition_spec h p.position ?_
    intro hnil
    rw [hnil] at hlen
    simp at hlen
  · decide

theorem suggest_history_frequency_amended_witness :
    ∃ l₁ l₂,
      keysInOrder [Position.defender, Position.midfielder] =
        l₁ ++ (suggest tiePlayer []) :: l₂ ∧
      (∀ q : Position,
        [Position.defender, Position.midfielder].count q ≤
          [Position.defender, Position.midfielder].count (suggest tiePlayer [])) ∧
      (∀ q ∈ l₂,
        [Position.defender, Position.midfielder].count q <
          [Position.defender, Position.midfielder].count (suggest tiePlayer [])) :=
  suggest_history_frequency_amended.1 tiePlayer [] _ rfl (by decide) (by decide)
    (by decide) (by decide) (by decide) (by decide) (by decide)

/-- C8: the suggester is total — it always yields one of the four position
kinds — and an undecodable stored history sends it to the catch, which
returns the player's own registered position. -/
theorem suggest_total_and_malformed_default (p : Player) (roster : List Player) :
    (suggest p roster = Position.goalkeeper ∨ suggest p roster = Position.defender ∨
      suggest p roster = Position.midfielder ∨ suggest p roster = Position.forward) ∧
    (p.positionHistory = none → suggest p roster = p.position) := by
  constructor
  · cases hs : suggest p roster
    · exact Or.inl rfl
    · exact Or.inr (Or.inl rfl)
    · exact Or.inr (Or.inr (Or.inl rfl))
    · exact Or.inr (Or.inr (Or.inr rfl))
  · intro hn
    simp [suggest, hn]

theorem suggest_total_and_malformed_default_witness :
    malformedPlayer.positionHistory = none ∧
    suggest malformedPlayer [] = malformedPlayer.position :=
  ⟨rfl, (suggest_total_and_malformed_default malformedPlayer []).2 rfl⟩

/-- C10: deleting the fallback re-check tier never changes the suggestion:
its three conditions were already evaluated, and found false, before the
team-needs tier ran. -/
theorem suggest_recheck_redundant (p : Player) (roster : List Player) :
    suggest p roster = suggestNoRecheck p roster := by
  cases hh : p.positionHistory with
  | none => simp [suggest, suggestNoRecheck, hh]
  | some h =>
    simp only [suggest, suggestNoRecheck, hh, suggestWithHistory, afterExperience,
      afterNeeds, afterNeedsNoRecheck]
    split_ifs <;> rfl

/-- C2: a non-empty roster smaller than the formation total yields
`InsufficientPlayers`, carrying the formation's total (the sum of its four
counts) and the roster size. -/
theorem assign_insufficient (avail : List Player) (f : Formation) (σ : List Nat)
    (hne : avail ≠ [])
    (hlt : avail.length < f.goalkeepers + f.defenders + f.midfielders + f.forwards) :
    generateTeamFormation avail f σ =
      AssignResult.insufficientPlayers
        (f.goalkeepers + f.defenders + f.midfielders + f.forwards) avail.length := by
  have h0 : avail.length ≠ 0 := by
    intro h
    exact hne (List.length_eq_zero.1 h)
  simp only [generateTeamFormation, Formation.required]
  rw [if_neg h0, if_pos hlt]

theorem assign_insufficient_witness :
    (roster5 ≠ [] ∧
      roster5.length < f442.goalkeepers + f442.defenders + f442.midfielders + f442.forwards) ∧
    generateTeamFormation roster5 f442 [] =
      AssignResult.insufficientPlayers
        (f442.goalkeepers + f442.defenders + f442.midfielders + f442.forwards)
        roster5.length :=
  ⟨⟨by decide, by decide⟩, assign_insufficient roster5 f442 [] (by decide) (by decide)⟩

/-- C3: an empty checked-in list yields `NoPlayersAvailable` for every
formation (also one requiring zero players): the empty check runs first. -/
theorem assign_no_players (f : Formation) (σ : List Nat) :
    generateTeamFormation [] f σ = AssignResult.noPlayersAvailable := by
  simp [generateTeamFormation]

/-! ## Assigner lemmas -/

@[simp] theorem mkFP_position (p : Player) (pos : Position) :
    (mkFP p pos).position = pos := rfl

@[simp] theorem mkFP_id (p : Player) (pos : Position) : (mkFP p pos).id = p.id := rfl

@[simp] theorem mkFP_name (p : Player) (pos : Position) : (mkFP p pos).name = p.name := rfl

@[simp] theorem mkFP_jersey (p : Player) (pos : Position) :
    (mkFP p pos).jerseyNumber = p.jerseyNumber := rfl

/-- Splicing a random valid index out of a list and putting the spliced
element back in front is a permutation. -/
theorem getD_cons_eraseIdx_perm {α : Type} (l : List α) (d : α) (idx : Nat)
    (h : idx < l.length) : (l.getD idx d :: l.eraseIdx idx).Perm l := by
  induction l generalizing idx with
  | nil => simp at h
  | cons a t ih =>
    cases idx with
    | zero =>
      simp only [List.getD_cons_zero, List.eraseIdx_cons_zero]
      exact List.Perm.refl _
    | succ i =>
      have hi : i < t.length := by simpa using h
      simp only [List.getD_cons_succ, List.eraseIdx_cons_succ]
      exact (List.Perm.swap a (t.getD i d) (t.eraseIdx i)).trans ((ih i hi).cons a)

/-- What the preferred-position inner loop produces: a list of
`FormationPlayer`s at the slot position, built from `min count bucketSize`
players spliced out of the bucket. -/
theorem selectFrom_spec (n : Nat) (bucket : List Player) (pos : Position)
    (σ : List Nat) :
    ∃ picked : List Player,
      (selectFrom n bucket pos σ).1 = picked.map (fun p => mkFP p pos) ∧
      (picked ++ (selectFrom n bucket pos σ).2.1).Perm bucket ∧
      picked.length = min n bucket.length := by
  induction n generalizing bucket σ with
  | zero => exact ⟨[], rfl, by simp [selectFrom], by simp⟩
  | succ n ih =>
    cases bucket with
    | nil => exact ⟨[], rfl, by simp [selectFrom], by simp [selectFrom]⟩
    | cons b0 bs =>
      have hlen : 0 < (b0 :: bs).length := by simp
      have hidxlt : σ.headD 0 % (b0 :: bs).length < (b0 :: bs).length :=
        Nat.mod_lt _ hlen
      obtain ⟨picked', h1, h2, h3⟩ :=
        ih ((b0 :: bs).eraseIdx (σ.headD 0 % (b0 :: bs).length)) σ.tail
      refine ⟨(b0 :: bs).getD (σ.headD 0 % (b0 :: bs).length) b0 :: picked', ?_, ?_, ?_⟩
      · simp only [selectFrom, List.map_cons]
        rw [h1]
      · simp only [selectFrom, List.cons_append]
        exact (h2.cons _).trans (getD_cons_eraseIdx_perm _ b0 _ hidxlt)
      · have := List.length_eraseIdx_add_one hidxlt
        simp only [List.length_cons] at this h3 ⊢
        rw [h3, Nat.min_def, Nat.min_def]
        split_ifs <;> omega

theorem perm_bubble2 {α : Type} (A B C : List α) (a : α) :
    (A ++ (B ++ (a :: C))).Perm (a :: (A ++ (B ++ C))) :=
  (List.Perm.append_left A List.perm_middle).trans List.perm_middle

theorem perm_bubble3 {α : Type} (A B C D : List α) (a : α) :
    (A ++ (B ++ (C ++ (a :: D)))).Perm (a :: (A ++ (B ++ (C ++ D)))) :=
  (List.Perm.append_left A (perm_bubble2 B C D a)).trans List.perm_middle

/-- The four registered-position buckets partition the checked-in list. -/
theorem filter_position_partition (l : List Player) :
    (l.filter (fun p => p.position == Position.goalkeeper) ++
     (l.filter (fun p => p.position == Position.defender) ++
      (l.filter (fun p => p.position == Position.midfielder) ++
       l.filter (fun p => p.position == Position.forward)))).Perm l := by
  induction l with
  | nil => simp
  | cons p t ih =>
    rcases hp : p.position
    case goalkeeper =>
      simp only [List.filter_cons, hp, beq_self_eq_true, if_true, beq_iff_eq,
        reduceCtorEq, if_false]
      exact ih.cons p
    case defender =>
      simp only [List.filter_cons, hp, beq_self_eq_true, if_true, beq_iff_eq,
        reduceCtorEq, if_false]
      exact List.perm_middle.trans (ih.cons p)
    case midfielder =>
      simp only [List.filter_cons, hp, beq_self_eq_true, if_true, beq_iff_eq,
        reduceCtorEq, if_false]
      exact (perm_bubble2 _ _ _ p).trans (ih.cons p)
    case forward =>
      simp only [List.filter_cons, hp, beq_self_eq_true, if_true, beq_iff_eq,
        reduceCtorEq, if_false]
      exact (perm_bubble3 _ _ _ _ p).trans (ih.cons p)

/-- The shape of the preferred-position pass: four picked sub-lists, one per
bucket, each a sub-permutation of its bucket of the right length. -/
theorem preferredPass_spec (avail : List Player) (f : Formation) (σ : List Nat) :
    ∃ p1 p2 p3 p4 r1 r2 r3 r4 : List Player,
      (preferredPass avail f σ).1 =
        p1.map (fun p => mkFP p Position.goalkeeper) ++
        (p2.map (fun p => mkFP p Position.defender) ++
         (p3.map (fun p => mkFP p Position.midfielder) ++
          p4.map (fun p => mkFP p Position.forward))) ∧
      (p1 ++ r1).Perm (avail.filter (fun p => p.position == Position.goalkeeper)) ∧
      (p2 ++ r2).Perm (avail.filter (fun p => p.position == Position.defender)) ∧
      (p3 ++ r3).Perm (avail.filter (fun p => p.position == Position.midfielder)) ∧
      (p4 ++ r4).Perm (avail.filter (fun p => p.position == Position.forward)) ∧
      p1.length = min (f.count Position.goalkeeper)
        (avail.filter (fun p => p.position == Position.goalkeeper)).length ∧
      p2.length = min (f.count Position.defender)
        (avail.filter (fun p => p.position == Position.defender)).length ∧
      p3.length = min (f.count Position.midfielder)
        (avail.filter (fun p => p.position == Position.midfielder)).length ∧
      p4.length = min (f.count Position.forward)
        (avail.filter (fun p => p.position == Position.forward)).length := by
  obtain ⟨p1, e1, hp1, l1⟩ := selectFrom_spec (f.count Position.goalkeeper)
    (avail.filter (fun p => p.position == Position.goalkeeper)) Position.goalkeeper σ
  obtain ⟨p2, e2, hp2, l2⟩ := selectFrom_spec (f.count Position.defender)
    (avail.filter (fun p => p.position == Position.defender)) Position.defender
    (selectFrom (f.count Position.goalkeeper)
      (avail.filter (fun p => p.position == Position.goalkeeper)) Position.goalkeeper σ).2.2
  obtain ⟨p3, e3, hp3, l3⟩ := selectFrom_spec (f.count Position.midfielder)
    (avail.filter (fun p => p.position == Position.midfielder)) Position.midfielder
    (selectFrom (f.count Position.defender)
      (avail.filter (fun p => p.position == Position.defender)) Position.defender
      (selectFrom (f.count Position.goalkeeper)
        (avail.filter (fun p => p.position == Position.goalkeeper))
        Position.goalkeeper σ).2.2).2.2
  obtain ⟨p4, e4, hp4, l4⟩ := selectFrom_spec (f.count Position.forward)
    (avail.filter (fun p => p.position == Position.forward)) Position.forward
    (selectFrom (f.count Position.midfielder)
      (avail.filter (fun p => p.position == Position.midfielder)) Position.midfielder
      (selectFrom (f.count Position.defender)
        (avail.filter (fun p => p.position == Position.defender)) Position.defender
        (selectFrom (f.count Position.goalkeeper)
          (avail.filter (fun p => p.position == Position.goalkeeper))
          Position.goalkeeper σ).2.2).2.2).2.2
  refine ⟨p1, p2, p3, p4, _, _, _, _, ?_, hp1, hp2, hp3, hp4, l1, l2, l3, l4⟩
  simp only [preferredPass]
  rw [e1, e2, e3, e4, List.append_assoc, List.append_assoc]

/-- Filtering a mapped chunk by assigned position keeps everything or
nothing. -/
theorem length_filter_map_mkFP (picked : List Player) (pos q : Position) :
    ((picked.map (fun p => mkFP p pos)).filter (fun fp => fp.position == q)).length =
      if pos = q then picked.length else 0 := by
  induction picked with
  | nil => simp
  | cons p t ih =>
    simp only [List.map_cons, List.filter_cons, mkFP_position]
    by_cases hpq : pos = q
    · subst hpq
      simp only [beq_self_eq_true, if_true, List.length_cons, ih, if_pos rfl]
    · have hb : (pos == q) = false := by
        simp [hpq]
      simp only [hb, Bool.false_eq_true, if_false, ih, if_neg hpq]

/-- The shape of the gap-filling pass when the pool is large enough: it
zips a sub-permutation of the pool with the needed slots. -/
theorem gapFill_spec (needed : List Position) (pool : List Player) (σ : List Nat)
    (h : needed.length ≤ pool.length) :
    ∃ picked rest : List Player,
      picked.length = needed.length ∧
      gapFill needed pool σ = List.zipWith mkFP picked needed ∧
      (picked ++ rest).Perm pool := by
  induction needed generalizing pool σ with
  | nil => exact ⟨[], pool, rfl, rfl, List.Perm.refl _⟩
  | cons pos restPos ih =>
    cases pool with
    | nil => simp at h
    | cons q0 qs =>
      have hlen : 0 < (q0 :: qs).length := by simp
      have hidxlt : σ.headD 0 % (q0 :: qs).length < (q0 :: qs).length :=
        Nat.mod_lt _ hlen
      have hle : restPos.length ≤
          ((q0 :: qs).eraseIdx (σ.headD 0 % (q0 :: qs).length)).length := by
        have h1 := List.length_eraseIdx_add_one hidxlt
        have h2 : (pos :: restPos).length = restPos.length + 1 := rfl
        omega
      obtain ⟨picked', rest', hplen, hgf, hperm⟩ :=
        ih ((q0 :: qs).eraseIdx (σ.headD 0 % (q0 :: qs).length)) σ.tail hle
      refine ⟨(q0 :: qs).getD (σ.headD 0 % (q0 :: qs).length) q0 :: picked', rest',
        by simp [hplen], ?_, ?_⟩
      · simp only [gapFill, List.zipWith_cons_cons]
        rw [hgf]
      · simp only [List.cons_append]
        exact (hperm.cons _).trans (getD_cons_eraseIdx_perm _ q0 _ hidxlt)

theorem zipWith_mkFP_positions (picked : List Player) (needed : List Position)
    (h : picked.length = needed.length) :
    (List.zipWith mkFP picked needed).map (fun fp => fp.position) = needed := by
  induction picked generalizing needed with
  | nil =>
    cases needed with
    | nil => rfl
    | cons _ _ => simp at h
  | cons p t ih =>
    cases needed with
    | nil => simp at h
    | cons pos rest =>
      simp only [List.zipWith_cons_cons, List.map_cons, mkFP_position]
      rw [ih rest (by simpa using h)]

theorem zipWith_mkFP_ids (picked : List Player) (needed : List Position)
    (h : picked.length = needed.length) :
    (List.zipWith mkFP picked needed).map (fun fp => fp.id) =
      picked.map (fun p => p.id) := by
  induction picked generalizing needed with
  | nil => rfl
  | cons p t ih =>
    cases needed with
    | nil => simp at h
    | cons pos rest =>
      simp only [List.zipWith_cons_cons, List.map_cons, mkFP_id]
      rw [ih rest (by simpa using h)]

theorem mem_zipWith_mkFP (picked : List Player) (needed : List Position)
    (fp : FormationPlayer) (hm : fp ∈ List.zipWith mkFP picked needed) :
    ∃ p ∈ picked, ∃ pos ∈ needed, fp = mkFP p pos := by
  induction picked generalizing needed with
  | nil => simp [List.zipWith] at hm
  | cons p t ih =>
    cases needed with
    | nil => simp [List.zipWith] at hm
    | cons pos rest =>
      simp only [List.zipWith_cons_cons, List.mem_cons] at hm
      rcases hm with rfl | hm
      · exact ⟨p, List.mem_cons_self p t, pos, List.mem_cons_self pos rest, rfl⟩
      · obtain ⟨p', hp', pos', hpos', rfl⟩ := ih rest hm
        exact ⟨p', List.mem_cons_of_mem p hp', pos', List.mem_cons_of_mem pos hpos', rfl⟩

/-- Ids are unchanged by wrapping players into `FormationPlayer`s. -/
theorem map_id_mkFP_chunks (p1 p2 p3 p4 : List Player) :
    ((p1.map (fun p => mkFP p Position.goalkeeper) ++
      (p2.map (fun p => mkFP p Position.defender) ++
       (p3.map (fun p => mkFP p Position.midfielder) ++
        p4.map (fun p => mkFP p Position.forward)))).map (fun fp => fp.id)) =
      (p1 ++ (p2 ++ (p3 ++ p4))).map (fun p => p.id) := by
  simp [List.map_append, List.map_map, Function.comp_def]

/-- Filtering the first-pass output by assigned position picks exactly the
matching chunk. -/
theorem sel_filter_length (p1 p2 p3 p4 : List Player) (q : Position) :
    ((p1.map (fun p => mkFP p Position.goalkeeper) ++
      (p2.map (fun p => mkFP p Position.defender) ++
       (p3.map (fun p => mkFP p Position.midfielder) ++
        p4.map (fun p => mkFP p Position.forward)))).filter
        (fun fp => fp.position == q)).length =
      (match q with
        | Position.goalkeeper => p1.length
        | Position.defender => p2.length
        | Position.midfielder => p3.length
        | Position.forward => p4.length) := by
  rcases q <;>
    simp [List.filter_append, length_filter_map_mkFP]

theorem count_positionsNeeded (f : Formation) (sel : List FormationPlayer)
    (q : Position) :
    (positionsNeeded f sel).count q =
      f.count q - (sel.filter (fun fp => fp.position == q)).length := by
  rcases q <;>
    simp [positionsNeeded, List.count_append, List.count_replicate, Formation.count]

theorem mem_positionsNeeded (f : Formation) (sel : List FormationPlayer)
    (q : Position) (h : q ∈ positionsNeeded f sel) :
    (sel.filter (fun fp => fp.position == q)).length < f.count q := by
  rcases q <;> simp [positionsNeeded, List.mem_replicate, Formation.count] at h ⊢ <;>
    omega

theorem length_positionsNeeded (f : Formation) (sel : List FormationPlayer) :
    (positionsNeeded f sel).length =
      (f.count Position.goalkeeper -
        (sel.filter (fun fp => fp.position == Position.goalkeeper)).length) +
      ((f.count Position.defender -
        (sel.filter (fun fp => fp.position == Position.defender)).length) +
       ((f.count Position.midfielder -
        (sel.filter (fun fp => fp.position == Position.midfielder)).length) +
        (f.count Position.forward -
        (sel.filter (fun fp => fp.position == Position.forward)).length))) := by
  simp [positionsNeeded, List.length_append]

/-- The size of the gap-filling pool: the checked-in players minus the
already-selected ones (ids are unique). -/
theorem length_remaining (avail : List Player) (selected : List FormationPlayer)
    (hnd : (avail.map (fun p => p.id)).Nodup)
    (hselnd : (selected.map (fun fp => fp.id)).Nodup)
    (hsub : ∀ fp ∈ selected, ∃ p ∈ avail, fp.id = p.id) :
    (avail.filter (fun p => ! selected.any (fun sp => sp.id == p.id))).length =
      avail.length - selected.length := by
  have hsplit := List.length_eq_length_filter_add
    (l := avail) (fun p => selected.any (fun sp => sp.id == p.id))
  have hperm : ((avail.filter (fun p => selected.any (fun sp => sp.id == p.id))).map
      (fun p => p.id)).Perm (selected.map (fun fp => fp.id)) := by
    refine (List.perm_ext_iff_of_nodup ?_ hselnd).2 ?_
    · exact hnd.sublist ((List.filter_sublist avail).map _)
    · intro a
      constructor
      · intro ha
        rcases List.mem_map.1 ha with ⟨p, hpmem, rfl⟩
        rcases List.mem_filter.1 hpmem with ⟨hpa, hPp⟩
        rcases List.any_eq_true.1 hPp with ⟨sp, hsp, hbeq⟩
        have hid : sp.id = p.id := by simpa using hbeq
        exact List.mem_map.2 ⟨sp, hsp, hid⟩
      · intro ha
        rcases List.mem_map.1 ha with ⟨sp, hsp, rfl⟩
        rcases hsub sp hsp with ⟨p, hpa, hip⟩
        refine List.mem_map.2 ⟨p, List.mem_filter.2 ⟨hpa, ?_⟩, hip.symm⟩
        exact List.any_eq_true.2 ⟨sp, hsp, by simpa using hip⟩
  have hlen2 := hperm.length_eq
  simp only [List.length_map] at hlen2
  omega

theorem mem_remaining (avail : List Player) (selected : List FormationPlayer)
    (p : Player)
    (h : p ∈ avail.filter (fun q => ! selected.any (fun sp => sp.id == q.id))) :
    p ∈ avail ∧ ∀ fp ∈ selected, fp.id ≠ p.id := by
  rcases List.mem_filter.1 h with ⟨hpa, hb⟩
  refine ⟨hpa, ?_⟩
  intro fp hfp heq
  have hany : selected.any (fun sp => sp.id == p.id) = true :=
    List.any_eq_true.2 ⟨fp, hfp, by simpa using heq⟩
  rw [hany] at hb
  simp at hb

/-- C1: with a non-empty checked-in list of distinct ids holding at least
as many players as the formation requires, the assigner succeeds — for
every random stream — with exactly `required` players, no id twice, every
assigned position one the formation demands (positive count), and per-kind
output counts equal to the formation's counts. -/
theorem assign_success_spec (avail : List Player) (f : Formation) (σ : List Nat)
    (hne : avail ≠ []) (hnd : (avail.map (fun p => p.id)).Nodup)
    (hreq : f.goalkeepers + f.defenders + f.midfielders + f.forwards ≤ avail.length) :
    ∃ team, generateTeamFormation avail f σ = AssignResult.ok team ∧
      team.length = f.goalkeepers + f.defenders + f.midfielders + f.forwards ∧
      (team.map (fun fp => fp.id)).Nodup ∧
      (∀ fp ∈ team, 0 < f.count fp.position) ∧
      (∀ q, (team.filter (fun fp => fp.position == q)).length = f.count q) := by
  obtain ⟨p1, p2, p3, p4, r1, r2, r3, r4, hsel, hq1, hq2, hq3, hq4, l1, l2, l3, l4⟩ :=
    preferredPass_spec avail f σ
  have hmem1 : ∀ p ∈ p1, p ∈ avail ∧ p.position = Position.goalkeeper := by
    intro p hp
    have hm : p ∈ avail.filter (fun p => p.position == Position.goalkeeper) :=
      hq1.subset (List.mem_append_left r1 hp)
    rcases List.mem_filter.1 hm with ⟨ha, hb⟩
    exact ⟨ha, by simpa using hb⟩
  have hmem2 : ∀ p ∈ p2, p ∈ avail ∧ p.position = Position.defender := by
    intro p hp
    have hm : p ∈ avail.filter (fun p => p.position == Position.defender) :=
      hq2.subset (List.mem_append_left r2 hp)
    rcases List.mem_filter.1 hm with ⟨ha, hb⟩
    exact ⟨ha, by simpa using hb⟩
  have hmem3 : ∀ p ∈ p3, p ∈ avail ∧ p.position = Position.midfielder := by
    intro p hp
    have hm : p ∈ avail.filter (fun p => p.position == Position.midfielder) :=
      hq3.subset (List.mem_append_left r3 hp)
    rcases List.mem_filter.1 hm with ⟨ha, hb⟩
    exact ⟨ha, by simpa using hb⟩
  have hmem4 : ∀ p ∈ p4, p ∈ avail ∧ p.position = Position.forward := by
    intro p hp
    have hm : p ∈ avail.filter (fun p => p.position == Position.forward) :=
      hq4.subset (List.mem_append_left r4 hp)
    rcases List.mem_filter.1 hm with ⟨ha, hb⟩
    exact ⟨ha, by simpa using hb⟩
  have hf1 : ((preferredPass avail f σ).1.filter
      (fun fp => fp.position == Position.goalkeeper)).length = p1.length := by
    rw [hsel]
    simpa using sel_filter_length p1 p2 p3 p4 Position.goalkeeper
  have hf2 : ((preferredPass avail f σ).1.filter
      (fun fp => fp.position == Position.defender)).length = p2.length := by
    rw [hsel]
    simpa using sel_filter_length p1 p2 p3 p4 Position.defender
  have hf3 : ((preferredPass avail f σ).1.filter
      (fun fp => fp.position == Position.midfielder)).length = p3.length := by
    rw [hsel]
    simpa using sel_filter_length p1 p2 p3 p4 Position.midfielder
  have hf4 : ((preferredPass avail f σ).1.filter
      (fun fp => fp.position == Position.forward)).length = p4.length := by
    rw [hsel]
    simpa using sel_filter_length p1 p2 p3 p4 Position.forward
  have hsellen : (preferredPass avail f σ).1.length =
      p1.length + (p2.length + (p3.length + p4.length)) := by
    rw [hsel]
    simp
  have hc1 : p1.length ≤ f.goalkeepers := by
    rw [l1]
    exact Nat.min_le_left _ _
  have hc2 : p2.length ≤ f.defenders := by
    rw [l2]
    exact Nat.min_le_left _ _
  have hc3 : p3.length ≤ f.midfielders := by
    rw [l3]
    exact Nat.min_le_left _ _
  have hc4 : p4.length ≤ f.forwards := by
    rw [l4]
    exact Nat.min_le_left _ _
  have hbigperm : ((p1 ++ r1) ++ ((p2 ++ r2) ++ ((p3 ++ r3) ++ (p4 ++ r4)))).Perm avail :=
    (hq1.append (hq2.append (hq3.append hq4))).trans (filter_position_partition avail)
  have hbignodup : (((p1 ++ r1) ++ ((p2 ++ r2) ++ ((p3 ++ r3) ++ (p4 ++ r4)))).map
      (fun p => p.id)).Nodup := ((hbigperm.map (fun p => p.id)).nodup_iff).2 hnd
  have hsubl : (p1 ++ (p2 ++ (p3 ++ p4))).Sublist
      ((p1 ++ r1) ++ ((p2 ++ r2) ++ ((p3 ++ r3) ++ (p4 ++ r4)))) :=
    (List.sublist_append_left p1 r1).append
      ((List.sublist_append_left p2 r2).append
        ((List.sublist_append_left p3 r3).append (List.sublist_append_left p4 r4)))
  have hselnodup : ((preferredPass avail f σ).1.map (fun fp => fp.id)).Nodup := by
    rw [hsel, map_id_mkFP_chunks]
    exact hbignodup.sublist (hsubl.map (fun p => p.id))
  have hmemsel : ∀ fp ∈ (preferredPass avail f σ).1,
      (∃ p ∈ avail, fp = mkFP p p.position) ∧ 0 < f.count fp.position := by
    intro fp hfp
    rw [hsel] at hfp
    rcases List.mem_append.1 hfp with h1 | hrest
    · rcases List.mem_map.1 h1 with ⟨p, hp, rfl⟩
      rcases hmem1 p hp with ⟨hpa, hppos⟩
      have hlp : 0 < p1.length := List.length_pos_of_mem hp
      rw [l1] at hlp
      exact ⟨⟨p, hpa, by rw [hppos]⟩, (lt_min_iff.mp hlp).1⟩
    rcases List.mem_append.1 hrest with h2 | hrest2
    · rcases List.mem_map.1 h2 with ⟨p, hp, rfl⟩
      rcases hmem2 p hp with ⟨hpa, hppos⟩
      have hlp : 0 < p2.length := List.length_pos_of_mem hp
      rw [l2] at hlp
      exact ⟨⟨p, hpa, by rw [hppos]⟩, (lt_min_iff.mp hlp).1⟩
    rcases List.mem_append.1 hrest2 with h3 | h4
    · rcases List.mem_map.1 h3 with ⟨p, hp, rfl⟩
      rcases hmem3 p hp with ⟨hpa, hppos⟩
      have hlp : 0 < p3.length := List.length_pos_of_mem hp
      rw [l3] at hlp
      exact ⟨⟨p, hpa, by rw [hppos]⟩, (lt_min_iff.mp hlp).1⟩
    · rcases List.mem_map.1 h4 with ⟨p, hp, rfl⟩
      rcases hmem4 p hp with ⟨hpa, hppos⟩
      have hlp : 0 < p4.length := List.length_pos_of_mem hp
      rw [l4] at hlp
      exact ⟨⟨p, hpa, by rw [hppos]⟩, (lt_min_iff.mp hlp).1⟩
  have hidsub : ∀ fp ∈ (preferredPass avail f σ).1, ∃ p ∈ avail, fp.id = p.id := by
    intro fp hfp
    rcases (hmemsel fp hfp).1 with ⟨p, hpa, rfl⟩
    exact ⟨p, hpa, rfl⟩
  have hcur : ∀ q, ((preferredPass avail f σ).1.filter
      (fun fp => fp.position == q)).length ≤ f.count q := by
    intro q
    rcases q
    · rw [hf1]; exact hc1
    · rw [hf2]; exact hc2
    · rw [hf3]; exact hc3
    · rw [hf4]; exact hc4
  have h0 : ¬ avail.length = 0 := fun h => hne (List.length_eq_zero.1 h)
  have hreq' : ¬ avail.length < f.required := by
    simp only [Formation.required]
    omega
  simp only [generateTeamFormation, if_neg h0, if_neg hreq']
  by_cases hlt : (preferredPass avail f σ).1.length < f.required
  · rw [if_pos hlt]
    have hneedlen : (positionsNeeded f (preferredPass avail f σ).1).length =
        f.required - (preferredPass avail f σ).1.length := by
      rw [length_positionsNeeded, hf1, hf2, hf3, hf4, hsellen]
      simp only [Formation.required, Formation.count]
      omega
    have hremlen : (avail.filter (fun p => ! (preferredPass avail f σ).1.any
        (fun sp => sp.id == p.id))).length =
        avail.length - (preferredPass avail f σ).1.length :=
      length_remaining avail (preferredPass avail f σ).1 hnd hselnodup hidsub
    have hfill : (positionsNeeded f (preferredPass avail f σ).1).length ≤
        (avail.filter (fun p => ! (preferredPass avail f σ).1.any
          (fun sp => sp.id == p.id))).length := by
      rw [hneedlen, hremlen]
      simp only [Formation.required]
      omega
    obtain ⟨picked, rest, hpicklen, hgf, hpoolperm⟩ :=
      gapFill_spec (positionsNeeded f (preferredPass avail f σ).1)
        (avail.filter (fun p => ! (preferredPass avail f σ).1.any
          (fun sp => sp.id == p.id)))
        (preferredPass avail f σ).2 hfill
    have hremnodup : ((avail.filter (fun p => ! (preferredPass avail f σ).1.any
        (fun sp => sp.id == p.id))).map (fun p => p.id)).Nodup :=
      hnd.sublist ((List.filter_sublist avail).map _)
    refine ⟨_, rfl, ?_, ?_, ?_, ?_⟩
    · have hzlen : (List.zipWith mkFP picked
          (positionsNeeded f (preferredPass avail f σ).1)).length =
          (positionsNeeded f (preferredPass avail f σ).1).length := by
        rw [List.length_zipWith, hpicklen, Nat.min_self]
      rw [List.length_append, hgf, hzlen, hneedlen]
      simp only [Formation.required] at hlt ⊢
      omega
    · rw [hgf, List.map_append, List.nodup_append]
      refine ⟨hselnodup, ?_, ?_⟩
      · rw [zipWith_mkFP_ids picked _ hpicklen]
        have hpoolids := (hpoolperm.map (fun p => p.id)).nodup_iff.2 hremnodup
        exact hpoolids.sublist ((List.sublist_append_left picked rest).map _)
      · rw [zipWith_mkFP_ids picked _ hpicklen]
        intro a ha hb
        rcases List.mem_map.1 ha with ⟨fp, hfp, hfpid⟩
        rcases List.mem_map.1 hb with ⟨p, hppicked, hpid⟩
        have hpR : p ∈ avail.filter (fun p => ! (preferredPass avail f σ).1.any
            (fun sp => sp.id == p.id)) :=
          hpoolperm.subset (List.mem_append_left rest hppicked)
        rcases mem_remaining avail (preferredPass avail f σ).1 p hpR with ⟨_, hforall⟩
        exact hforall fp hfp (by rw [hfpid, hpid])
    · rw [hgf]
      intro fp hfp
      rcases List.mem_append.1 hfp with hfp | hfp
      · exact (hmemsel fp hfp).2
      · obtain ⟨p, hp, pos, hposmem, rfl⟩ := mem_zipWith_mkFP picked _ fp hfp
        have := mem_positionsNeeded f (preferredPass avail f σ).1 pos hposmem
        simp only [mkFP_position]
        omega
    · intro q
      rw [hgf, List.filter_append, List.length_append]
      have hgcount : ((List.zipWith mkFP picked
          (positionsNeeded f (preferredPass avail f σ).1)).filter
          (fun fp => fp.position == q)).length =
          (positionsNeeded f (preferredPass avail f σ).1).count q := by
        rw [← List.countP_eq_length_filter]
        have hmap := zipWith_mkFP_positions picked _ hpicklen
        conv_rhs => rw [← hmap]
        rw [List.count_eq_countP, List.countP_map]
        rfl
      rw [hgcount, count_positionsNeeded]
      have := hcur q
      omega
  · rw [if_neg hlt]
    have hexact : p1.length = f.goalkeepers ∧ p2.length = f.defenders ∧
        p3.length = f.midfielders ∧ p4.length = f.forwards := by
      simp only [Formation.required] at hlt
      omega
    refine ⟨_, rfl, ?_, hselnodup, ?_, ?_⟩
    · rw [hsellen]
      omega
    · intro fp hfp
      exact (hmemsel fp hfp).2
    · intro q
      rcases q
      · rw [hf1]; exact hexact.1
      · rw [hf2]; exact hexact.2.1
      · rw [hf3]; exact hexact.2.2.1
      · rw [hf4]; exact hexact.2.2.2

theorem assign_success_spec_witness :
    (roster442 ≠ [] ∧ (roster442.map (fun p => p.id)).Nodup ∧
      f442.goalkeepers + f442.defenders + f442.midfielders + f442.forwards ≤
        roster442.length) ∧
    ∃ team, generateTeamFormation roster442 f442 [] = AssignResult.ok team ∧
      team.length = f442.goalkeepers + f442.defenders + f442.midfielders + f442.forwards ∧
      (team.map (fun fp => fp.id)).Nodup ∧
      (∀ fp ∈ team, 0 < f442.count fp.position) ∧
      (∀ q, (team.filter (fun fp => fp.position == q)).length = f442.count q) :=
  ⟨⟨by decide, by decide, by decide⟩,
    assign_success_spec roster442 f442 [] (by decide) (by decide) (by decide)⟩

/-- C9: on a roster whose registered positions match 4-4-2 exactly
(1 GK, 4 DF, 4 MF, 2 FW), the assigner — whatever the random draws —
returns all 11 players, each assigned to their own registered position
(the preferred pass exhausts every bucket). -/
theorem assign_exact_442 (avail : List Player) (σ : List Nat)
    (h1 : (avail.filter (fun p => p.position == Position.goalkeeper)).length = 1)
    (h2 : (avail.filter (fun p => p.position == Position.defender)).length = 4)
    (h3 : (avail.filter (fun p => p.position == Position.midfielder)).length = 4)
    (h4 : (avail.filter (fun p => p.position == Position.forward)).length = 2) :
    ∃ team, generateTeamFormation avail f442 σ = AssignResult.ok team ∧
      team.length = 11 ∧
      (team.map (fun fp => fp.id)).Perm (avail.map (fun p => p.id)) ∧
      ∀ fp ∈ team, ∃ p ∈ avail, fp.id = p.id ∧ fp.name = p.name ∧
        fp.jerseyNumber = p.jerseyNumber ∧ fp.position = p.position := by
  obtain ⟨p1, p2, p3, p4, r1, r2, r3, r4, hsel, hq1, hq2, hq3, hq4, l1, l2, l3, l4⟩ :=
    preferredPass_spec avail f442 σ
  have havail : avail.length = 11 := by
    have hp := (filter_position_partition avail).length_eq
    simp only [List.length_append, h1, h2, h3, h4] at hp
    omega
  rw [h1] at l1
  rw [h2] at l2
  rw [h3] at l3
  rw [h4] at l4
  have hl1 : p1.length = 1 := by simpa using l1
  have hl2 : p2.length = 4 := by simpa using l2
  have hl3 : p3.length = 4 := by simpa using l3
  have hl4 : p4.length = 2 := by simpa using l4
  have hr1 : r1 = [] := by
    have := hq1.length_eq
    simp only [List.length_append, h1, hl1] at this
    exact List.eq_nil_of_length_eq_zero (by omega)
  have hr2 : r2 = [] := by
    have := hq2.length_eq
    simp only [List.length_append, h2, hl2] at this
    exact List.eq_nil_of_length_eq_zero (by omega)
  have hr3 : r3 = [] := by
    have := hq3.length_eq
    simp only [List.length_append, h3, hl3] at this
    exact List.eq_nil_of_length_eq_zero (by omega)
  have hr4 : r4 = [] := by
    have := hq4.length_eq
    simp only [List.length_append, h4, hl4] at this
    exact List.eq_nil_of_length_eq_zero (by omega)
  rw [hr1, List.append_nil] at hq1
  rw [hr2, List.append_nil] at hq2
  rw [hr3, List.append_nil] at hq3
  rw [hr4, List.append_nil] at hq4
  have hsellen : (preferredPass avail f442 σ).1.length = 11 := by
    rw [hsel]
    simp [hl1, hl2, hl3, hl4]
  have h0 : ¬ avail.length = 0 := by omega
  have hreq' : ¬ avail.length < f442.required := by
    simp only [Formation.required, f442]
    omega
  have hlt : ¬ (preferredPass avail f442 σ).1.length < f442.required := by
    rw [hsellen]
    simp [Formation.required, f442]
  simp only [generateTeamFormation, if_neg h0, if_neg hreq', if_neg hlt]
  refine ⟨_, rfl, hsellen, ?_, ?_⟩
  · rw [hsel, map_id_mkFP_chunks]
    have hcat : (p1 ++ (p2 ++ (p3 ++ p4))).Perm
        (avail.filter (fun p => p.position == Position.goalkeeper) ++
         (avail.filter (fun p => p.position == Position.defender) ++
          (avail.filter (fun p => p.position == Position.midfielder) ++
           avail.filter (fun p => p.position == Position.forward)))) :=
      hq1.append (hq2.append (hq3.append hq4))
    exact (hcat.trans (filter_position_partition avail)).map (fun p => p.id)
  · intro fp hfp
    rw [hsel] at hfp
    have hget : ∀ (p : Player), p ∈ avail → ∀ pos, p.position = pos →
        ∃ q ∈ avail, (mkFP p pos).id = q.id ∧ (mkFP p pos).name = q.name ∧
          (mkFP p pos).jerseyNumber = q.jerseyNumber ∧ (mkFP p pos).position = q.position := by
      intro p hpa pos hpos
      exact ⟨p, hpa, rfl, rfl, rfl, by simp [hpos]⟩
    rcases List.mem_append.1 hfp with hm | hrest
    · rcases List.mem_map.1 hm with ⟨p, hp, rfl⟩
      have hpB := hq1.subset hp
      rcases List.mem_filter.1 hpB with ⟨hpa, hb⟩
      exact hget p hpa Position.goalkeeper (by simpa using hb)
    rcases List.mem_append.1 hrest with hm | hrest2
    · rcases List.mem_map.1 hm with ⟨p, hp, rfl⟩
      have hpB := hq2.subset hp
      rcases List.mem_filter.1 hpB with ⟨hpa, hb⟩
      exact hget p hpa Position.defender (by simpa using hb)
    rcases List.mem_append.1 hrest2 with hm | hm
    · rcases List.mem_map.1 hm with ⟨p, hp, rfl⟩
      have hpB := hq3.subset hp
      rcases List.mem_filter.1 hpB with ⟨hpa, hb⟩
      exact hget p hpa Position.midfielder (by simpa using hb)
    · rcases List.mem_map.1 hm with ⟨p, hp, rfl⟩
      have hpB := hq4.subset hp
      rcases List.mem_filter.1 hpB with ⟨hpa, hb⟩
      exact hget p hpa Position.forward (by simpa using hb)

theorem assign_exact_442_witness :
    ((roster442.filter (fun p => p.position == Position.goalkeeper)).length = 1 ∧
     (roster442.filter (fun p => p.position == Position.defender)).length = 4 ∧
     (roster442.filter (fun p => p.position == Position.midfielder)).length = 4 ∧
     (roster442.filter (fun p => p.position == Position.forward)).length = 2) ∧
    ∃ team, generateTeamFormation roster442 f442 [3, 1, 4, 1, 5] = AssignResult.ok team ∧
      team.length = 11 ∧
      (team.map (fun fp => fp.id)).Perm (roster442.map (fun p => p.id)) ∧
      ∀ fp ∈ team, ∃ p ∈ roster442, fp.id = p.id ∧ fp.name = p.name ∧
        fp.jerseyNumber = p.jerseyNumber ∧ fp.position = p.position :=
  ⟨⟨by decide, by decide, by decide, by decide⟩,
    assign_exact_442 roster442 [3, 1, 4, 1, 5] (by decide) (by decide) (by decide)
      (by decide)⟩

end Soccer
